import Mathlib

/-!
Verification of the derived-metrics computation engine of a multi-outlet
restaurant management application (ProfitLens).

The development is a shallow embedding of the metric functions found in
src/services/databaseService.ts: the raw entity records become Lean
structures, monetary and quantity values become rationals, calendar days
become integers (a day number), and the ambient clock value used by the
source (new Date()) becomes an explicit rational parameter measured in
days, so that a record stored for day d corresponds to the instant d
(midnight) and the floor of the clock value is today's day number.
JavaScript Map lookup keeps the last binding for a key; the embedding
mirrors that in mapGet.  Math.round on a non-negative value agrees with
Mathlib's round (both compute the floor of x + 1/2).
-/

namespace ProfitLens

/-- An ingredient row as produced by getIngredients: previousPrice is
optional, all numeric columns are parsed to numbers. -/
structure Ingredient where
  id : String
  name : String
  unit : String
  price : ℚ
  previousPrice : Option ℚ
  stockLevel : ℚ
  reorderPoint : ℚ
  outletId : String
  deriving DecidableEq, Repr

/-- A raw menu item row (the derived cogs, actualMargin and marginStatus
fields are computed later, never stored). -/
structure MenuItemData where
  id : String
  name : String
  sellingPrice : ℚ
  targetMargin : ℚ
  deriving DecidableEq, Repr

/-- One row of the recipes join table. -/
structure RecipeRow where
  menuItemId : String
  ingredientId : String
  quantity : ℚ
  deriving DecidableEq, Repr

/-- A recipe component attached to a menu item (ingredientId, quantity). -/
structure RecipeComponent where
  ingredientId : String
  quantity : ℚ
  deriving DecidableEq, Repr

/-- Margin classification of a menu item. -/
inductive MarginStatus where
  | Safe
  | Warning
  | Danger
  deriving DecidableEq, Repr

/-- A menu item enriched with its recipe and the derived cogs, actualMargin
and marginStatus fields. -/
structure MenuItem where
  id : String
  name : String
  sellingPrice : ℚ
  targetMargin : ℚ
  recipe : List RecipeComponent
  cogs : ℚ
  actualMargin : ℚ
  marginStatus : MarginStatus
  deriving DecidableEq, Repr

/-- A daily sales line: date is a calendar day number, quantitySold a
non-negative integer, totalRevenue a decimal amount. -/
structure SalesHistoryRecord where
  date : ℤ
  menuItemId : String
  quantitySold : ℕ
  totalRevenue : ℚ
  outletId : String
  deriving DecidableEq, Repr

/-- Billing interval of an operational cost. -/
inductive CostInterval where
  | daily
  | monthly
  deriving DecidableEq, Repr

/-- An operational cost row. -/
structure OperationalCost where
  id : String
  name : String
  amount : ℚ
  interval : CostInterval
  outletId : String
  deriving DecidableEq, Repr

/-- A waste record; cost was computed as ingredient.price * quantity at
recording time and is stored, never re-derived. -/
structure WasteRecord where
  id : String
  date : ℤ
  ingredientId : String
  quantity : ℚ
  reason : String
  cost : ℚ
  outletId : String
  deriving DecidableEq, Repr

/-- One line of a pending purchase order. -/
structure OrderItem where
  ingredientId : String
  quantityToOrder : ℚ
  deriving DecidableEq, Repr

/-- A pending purchase order. -/
structure PendingOrder where
  id : String
  items : List OrderItem
  outletId : String
  deriving DecidableEq, Repr

/-- JavaScript Map lookup over a keyed list, as built by
new Map(list.map(x => [key x, x])): the last binding for a key wins. -/
def mapGet (key : α → String) (l : List α) (k : String) : Option α :=
  l.foldl (fun acc x => if key x = k then some x else acc) none

/-- The per-item body of the menuItems memo: joins one raw menu item with
its recipe rows and derives cogs (summing ingredient.price *
component.quantity, a component whose ingredient is absent from the
ingredient map contributing nothing), actualMargin, and marginStatus from
the margin difference. -/
def costMenuItem (ingredients : List Ingredient) (recipes : List RecipeRow)
    (item : MenuItemData) : MenuItem :=
  let itemRecipes := recipes.filter fun r => r.menuItemId = item.id
  let recipe : List RecipeComponent :=
    itemRecipes.map fun r => ⟨r.ingredientId, r.quantity⟩
  let cogs : ℚ := recipe.foldl (fun total component =>
    match mapGet Ingredient.id ingredients component.ingredientId with
    | some ingredient => total + ingredient.price * component.quantity
    | none => total) 0
  let actualMargin : ℚ :=
    if item.sellingPrice > 0 then
      (item.sellingPrice - cogs) / item.sellingPrice * 100
    else 0
  let marginDifference := actualMargin - item.targetMargin
  let marginStatus : MarginStatus :=
    if marginDifference < 0 ∧ marginDifference ≥ -10 then .Warning
    else if marginDifference < -10 then .Danger
    else .Safe
  { id := item.id, name := item.name, sellingPrice := item.sellingPrice,
    targetMargin := item.targetMargin, recipe := recipe, cogs := cogs,
    actualMargin := actualMargin, marginStatus := marginStatus }

/-- The menuItems memo maps costMenuItem over every raw menu item. -/
def computeMenuItems (ingredients : List Ingredient)
    (menuItemsData : List MenuItemData) (recipes : List RecipeRow) :
    List MenuItem :=
  menuItemsData.map (costMenuItem ingredients recipes)

/-- Flat profit-and-loss statement produced by calculateProfitLoss. -/
structure ProfitLossStats where
  periodDays : ℕ
  totalRevenue : ℚ
  totalCogs : ℚ
  grossProfit : ℚ
  totalOperationalCost : ℚ
  totalWasteCost : ℚ
  netProfit : ℚ
  grossProfitMargin : ℚ
  netProfitMargin : ℚ
  deriving DecidableEq, Repr

/-- The calculateProfitLoss helper: keeps sales and waste records dated on
or after now - periodDays, accumulates revenue and cogs over kept sales
whose menu item resolves (the forEach body runs entirely inside the
if (menuItem) guard), normalizes operational costs to a daily amount
(amount / 30 when monthly) scaled by the period, and derives profits and
margins, the margins defaulting to 0 when totalRevenue is not positive. -/
def calculateProfitLoss (now : ℚ) (periodDays : ℕ)
    (salesHistory : List SalesHistoryRecord) (menuItems : List MenuItem)
    (operationalCosts : List OperationalCost)
    (wasteHistory : List WasteRecord) : ProfitLossStats :=
  let cutoffDate : ℚ := now - periodDays
  let relevantSales := salesHistory.filter fun r => (r.date : ℚ) ≥ cutoffDate
  let relevantWaste := wasteHistory.filter fun r => (r.date : ℚ) ≥ cutoffDate
  let totals : ℚ × ℚ := relevantSales.foldl (fun acc sale =>
    match mapGet MenuItem.id menuItems sale.menuItemId with
    | some menuItem =>
        (acc.1 + sale.totalRevenue, acc.2 + menuItem.cogs * sale.quantitySold)
    | none => acc) (0, 0)
  let totalRevenue := totals.1
  let totalCogs := totals.2
  let totalOperationalCost : ℚ := operationalCosts.foldl (fun sum cost =>
    let dailyCost : ℚ :=
      match cost.interval with
      | .monthly => cost.amount / 30
      | .daily => cost.amount
    sum + dailyCost * periodDays) 0
  let totalWasteCost : ℚ :=
    relevantWaste.foldl (fun sum record => sum + record.cost) 0
  let grossProfit := totalRevenue - totalCogs
  let netProfit := grossProfit - totalOperationalCost - totalWasteCost
  let grossProfitMargin : ℚ :=
    if totalRevenue > 0 then grossProfit / totalRevenue * 100 else 0
  let netProfitMargin : ℚ :=
    if totalRevenue > 0 then netProfit / totalRevenue * 100 else 0
  { periodDays := periodDays, totalRevenue := totalRevenue,
    totalCogs := totalCogs, grossProfit := grossProfit,
    totalOperationalCost := totalOperationalCost,
    totalWasteCost := totalWasteCost, netProfit := netProfit,
    grossProfitMargin := grossProfitMargin, netProfitMargin := netProfitMargin }

/-- Cost contributed by one recipe component: the ingredient's price times
the component quantity, or 0 when the ingredient is absent from the map. -/
def componentCost (ingredients : List Ingredient)
    (component : RecipeComponent) : ℚ :=
  match mapGet Ingredient.id ingredients component.ingredientId with
  | some ingredient => ingredient.price * component.quantity
  | none => 0

/-- Whether a sales record's menu item resolves in the menu item map. -/
def saleResolves (menuItems : List MenuItem) (sale : SalesHistoryRecord) :
    Bool :=
  (mapGet MenuItem.id menuItems sale.menuItemId).isSome

/-- Cogs contribution of a sales record: the resolved menu item's cogs
times the quantity sold, or 0 when the menu item is missing. -/
def saleCogs (menuItems : List MenuItem) (sale : SalesHistoryRecord) : ℚ :=
  match mapGet MenuItem.id menuItems sale.menuItemId with
  | some menuItem => menuItem.cogs * sale.quantitySold
  | none => 0

theorem foldl_add_map (f : α → ℚ) (l : List α) (a : ℚ) :
    l.foldl (fun s x => s + f x) a = a + (l.map f).sum := by
  induction l generalizing a with
  | nil => simp
  | cons x l ih => simp [ih, add_assoc]

theorem cogs_foldl (ingredients : List Ingredient)
    (l : List RecipeComponent) (a : ℚ) :
    l.foldl (fun total component =>
      match mapGet Ingredient.id ingredients component.ingredientId with
      | some ingredient => total + ingredient.price * component.quantity
      | none => total) a
    = a + (l.map (componentCost ingredients)).sum := by
  induction l generalizing a with
  | nil => simp
  | cons c l ih =>
    simp only [List.foldl_cons, List.map_cons, List.sum_cons]
    rw [ih]
    cases h : mapGet Ingredient.id ingredients c.ingredientId with
    | none => simp [componentCost, h]
    | some i => simp [componentCost, h, add_assoc]

theorem pl_totals_foldl (menuItems : List MenuItem)
    (l : List SalesHistoryRecord) (a b : ℚ) :
    l.foldl (fun acc sale =>
      match mapGet MenuItem.id menuItems sale.menuItemId with
      | some menuItem =>
          (acc.1 + sale.totalRevenue,
           acc.2 + menuItem.cogs * sale.quantitySold)
      | none => acc) (a, b)
    = (a + ((l.filter (saleResolves menuItems)).map
          SalesHistoryRecord.totalRevenue).sum,
       b + ((l.filter (saleResolves menuItems)).map
          (saleCogs menuItems)).sum) := by
  induction l generalizing a b with
  | nil => simp
  | cons s l ih =>
    simp only [List.foldl_cons, List.filter_cons]
    cases h : mapGet MenuItem.id menuItems s.menuItemId with
    | none =>
      have hr : saleResolves menuItems s = false := by
        simp [saleResolves, h]
      simp [hr, ih]
    | some m =>
      have hr : saleResolves menuItems s = true := by
        simp [saleResolves, h]
      have hc : saleCogs menuItems s = m.cogs * s.quantitySold := by
        simp [saleCogs, h]
      simp [hr, ih, hc, add_assoc]

theorem costMenuItem_recipe (ingredients : List Ingredient)
    (recipes : List RecipeRow) (item : MenuItemData) :
    (costMenuItem ingredients recipes item).recipe
      = (recipes.filter fun r => r.menuItemId = item.id).map
          fun r => (⟨r.ingredientId, r.quantity⟩ : RecipeComponent) := rfl

theorem costMenuItem_cogs (ingredients : List Ingredient)
    (recipes : List RecipeRow) (item : MenuItemData) :
    (costMenuItem ingredients recipes item).cogs
      = ((costMenuItem ingredients recipes item).recipe.map
          (componentCost ingredients)).sum := by
  rw [costMenuItem_recipe]
  show List.foldl _ 0 _ = _
  rw [cogs_foldl]
  simp

theorem costMenuItem_actualMargin (ingredients : List Ingredient)
    (recipes : List RecipeRow) (item : MenuItemData) :
    (costMenuItem ingredients recipes item).actualMargin
      = (if item.sellingPrice > 0 then
          (item.sellingPrice - (costMenuItem ingredients recipes item).cogs)
            / item.sellingPrice * 100
        else 0) := rfl

theorem costMenuItem_sellingPrice (ingredients : List Ingredient)
    (recipes : List RecipeRow) (item : MenuItemData) :
    (costMenuItem ingredients recipes item).sellingPrice
      = item.sellingPrice := rfl

theorem costMenuItem_targetMargin (ingredients : List Ingredient)
    (recipes : List RecipeRow) (item : MenuItemData) :
    (costMenuItem ingredients recipes item).targetMargin
      = item.targetMargin := rfl

theorem costMenuItem_marginStatus (ingredients : List Ingredient)
    (recipes : List RecipeRow) (item : MenuItemData) :
    (costMenuItem ingredients recipes item).marginStatus
      = (if (costMenuItem ingredients recipes item).actualMargin
            - item.targetMargin < 0
          ∧ (costMenuItem ingredients recipes item).actualMargin
            - item.targetMargin ≥ -10
        then MarginStatus.Warning
        else if (costMenuItem ingredients recipes item).actualMargin
            - item.targetMargin < -10
        then MarginStatus.Danger
        else MarginStatus.Safe) := rfl

/-- C2: every costed menu item has cogs equal to the sum over its recipe
components of ingredient price times component quantity (a component whose
ingredient is missing from the map contributing 0), actualMargin equal to
(sellingPrice - cogs) / sellingPrice * 100 when sellingPrice is positive
and 0 otherwise, and in particular an empty recipe gives cogs 0 and
actualMargin 100 whenever sellingPrice is positive. -/
theorem computeMenuItems_cogs_actualMargin (ingredients : List Ingredient)
    (menuItemsData : List MenuItemData) (recipes : List RecipeRow)
    (item : MenuItem)
    (hmem : item ∈ computeMenuItems ingredients menuItemsData recipes) :
    item.cogs = (item.recipe.map (componentCost ingredients)).sum
    ∧ item.actualMargin
        = (if item.sellingPrice > 0 then
            (item.sellingPrice - item.cogs) / item.sellingPrice * 100
          else 0)
    ∧ (item.recipe = [] →
        item.cogs = 0 ∧ (item.sellingPrice > 0 → item.actualMargin = 100)) := by
  rw [computeMenuItems, List.mem_map] at hmem
  obtain ⟨md, _, rfl⟩ := hmem
  refine ⟨costMenuItem_cogs _ _ _, ?_, ?_⟩
  · rw [costMenuItem_actualMargin, costMenuItem_sellingPrice]
  · intro hrec
    have hc : (costMenuItem ingredients recipes md).cogs = 0 := by
      rw [costMenuItem_cogs, hrec]; simp
    refine ⟨hc, fun hp => ?_⟩
    rw [costMenuItem_sellingPrice] at hp
    rw [costMenuItem_actualMargin, hc, if_pos hp, sub_zero,
      div_self (ne_of_gt hp), one_mul]

/-- C2 witness: a concrete menu item with an empty recipe and selling
price 100 has cogs 0 and actualMargin 100. -/
theorem computeMenuItems_cogs_actualMargin_witness :
    (costMenuItem [] [] ⟨"m1", "Empty", 100, 80⟩).cogs = 0
    ∧ (costMenuItem [] [] ⟨"m1", "Empty", 100, 80⟩).actualMargin = 100 := by
  have h := computeMenuItems_cogs_actualMargin [] [⟨"m1", "Empty", 100, 80⟩]
    [] (costMenuItem [] [] ⟨"m1", "Empty", 100, 80⟩)
    (by simp [computeMenuItems])
  have h2 := h.2.2 rfl
  exact ⟨h2.1, h2.2 (by norm_num [costMenuItem_sellingPrice])⟩

/-- C3: the margin classification of every costed menu item follows the
difference between actualMargin and targetMargin: Safe when the difference
is at least 0, Warning when it lies in [-10, 0), Danger when it is below
-10. -/
theorem computeMenuItems_marginStatus (ingredients : List Ingredient)
    (menuItemsData : List MenuItemData) (recipes : List RecipeRow)
    (item : MenuItem)
    (hmem : item ∈ computeMenuItems ingredients menuItemsData recipes) :
    (item.actualMargin - item.targetMargin ≥ 0 →
      item.marginStatus = MarginStatus.Safe)
    ∧ (item.actualMargin - item.targetMargin < 0 →
        item.actualMargin - item.targetMargin ≥ -10 →
        item.marginStatus = MarginStatus.Warning)
    ∧ (item.actualMargin - item.targetMargin < -10 →
        item.marginStatus = MarginStatus.Danger) := by
  rw [computeMenuItems, List.mem_map] at hmem
  obtain ⟨md, _, rfl⟩ := hmem
  rw [costMenuItem_marginStatus, costMenuItem_targetMargin]
  refine ⟨fun h0 => ?_, fun hneg hge => ?_, fun hlt => ?_⟩
  · rw [if_neg (by rintro ⟨h1, _⟩; linarith), if_neg (by intro h1; linarith)]
  · rw [if_pos ⟨hneg, hge⟩]
  · rw [if_neg (by rintro ⟨_, h2⟩; linarith), if_pos hlt]

/-- C3 witness: with an empty recipe and selling price 100 the actual
margin is 100, so target margins 100, 110 and 110.01 give Safe, Warning
and Danger respectively. -/
theorem computeMenuItems_marginStatus_witness :
    (costMenuItem [] [] ⟨"ms", "S", 100, 100⟩).marginStatus
      = MarginStatus.Safe
    ∧ (costMenuItem [] [] ⟨"mw", "W", 100, 110⟩).marginStatus
      = MarginStatus.Warning
    ∧ (costMenuItem [] [] ⟨"md", "D", 100, 11001/100⟩).marginStatus
      = MarginStatus.Danger := by
  have hm : ∀ (i n : String) (t : ℚ),
      (costMenuItem [] [] ⟨i, n, 100, t⟩).actualMargin = 100 := by
    intro i n t
    rw [costMenuItem_actualMargin, costMenuItem_cogs, costMenuItem_recipe]
    norm_num
  refine ⟨?_, ?_, ?_⟩
  · exact (computeMenuItems_marginStatus [] [⟨"ms", "S", 100, 100⟩] [] _
      (by simp [computeMenuItems])).1
      (by norm_num [hm, costMenuItem_targetMargin])
  · exact (computeMenuItems_marginStatus [] [⟨"mw", "W", 100, 110⟩] [] _
      (by simp [computeMenuItems])).2.1
      (by norm_num [hm, costMenuItem_targetMargin])
      (by norm_num [hm, costMenuItem_targetMargin])
  · exact (computeMenuItems_marginStatus [] [⟨"md", "D", 100, 11001/100⟩] [] _
      (by simp [computeMenuItems])).2.2
      (by norm_num [hm, costMenuItem_targetMargin])

/-- A concrete sales record whose menuItemId resolves to no menu item. -/
def ghostSale : SalesHistoryRecord := ⟨10, "ghost", 1, 50, "o1"⟩

/-- C1 counterexample: with one kept sales record (date 10, revenue 50,
cutoff 10 - 5 = 5) whose menu item has been deleted, the statement's
totalRevenue is 0, not the 50 that summing totalRevenue over every kept
sales record would give: calculateProfitLoss drops the revenue of a sale
referencing a missing menu item, not only its COGS contribution. -/
theorem calculateProfitLoss_missing_item_drops_revenue :
    (ghostSale.date : ℚ) ≥ 10 - (5 : ℕ)
    ∧ (([ghostSale].filter fun r => (r.date : ℚ) ≥ 10 - (5 : ℕ)).map
        SalesHistoryRecord.totalRevenue).sum = 50
    ∧ (calculateProfitLoss 10 5 [ghostSale] [] [] []).totalRevenue = 0
    ∧ (0 : ℚ) ≠ 50 := by
  refine ⟨by norm_num [ghostSale], by norm_num [ghostSale], ?_, by norm_num⟩
  norm_num [calculateProfitLoss, mapGet, ghostSale]

/-- C1 (amended): in the P&L statement for a period, totalRevenue is the
sum of sale.totalRevenue over the kept sales records whose menu item still
resolves, and totalCogs the matching sum of menuItem.cogs *
sale.quantitySold; a kept sale referencing a deleted menu item is skipped
entirely, contributing neither revenue nor COGS. -/
theorem calculateProfitLoss_totals (now : ℚ) (periodDays : ℕ)
    (salesHistory : List SalesHistoryRecord) (menuItems : List MenuItem)
    (operationalCosts : List OperationalCost)
    (wasteHistory : List WasteRecord) :
    (calculateProfitLoss now periodDays salesHistory menuItems
        operationalCosts wasteHistory).totalRevenue
      = (((salesHistory.filter fun r => (r.date : ℚ) ≥ now - periodDays).filter
          (saleResolves menuItems)).map SalesHistoryRecord.totalRevenue).sum
    ∧ (calculateProfitLoss now periodDays salesHistory menuItems
        operationalCosts wasteHistory).totalCogs
      = (((salesHistory.filter fun r => (r.date : ℚ) ≥ now - periodDays).filter
          (saleResolves menuItems)).map (saleCogs menuItems)).sum := by
  constructor <;>
  · simp only [calculateProfitLoss]
    rw [pl_totals_foldl]
    simp

/-- C5: when no sales record survives the period cutoff, the P&L statement
has totalRevenue 0, both profit margins 0 (the division-by-zero-prone
ratios default to 0 rather than being undefined), and netProfit equal to
the negation of totalOperationalCost + totalWasteCost. -/
theorem calculateProfitLoss_zero_sales (now : ℚ) (periodDays : ℕ)
    (salesHistory : List SalesHistoryRecord) (menuItems : List MenuItem)
    (operationalCosts : List OperationalCost)
    (wasteHistory : List WasteRecord)
    (h : salesHistory.filter (fun r => (r.date : ℚ) ≥ now - periodDays) = []) :
    (calculateProfitLoss now periodDays salesHistory menuItems
        operationalCosts wasteHistory).totalRevenue = 0
    ∧ (calculateProfitLoss now periodDays salesHistory menuItems
        operationalCosts wasteHistory).grossProfitMargin = 0
    ∧ (calculateProfitLoss now periodDays salesHistory menuItems
        operationalCosts wasteHistory).netProfitMargin = 0
    ∧ (calculateProfitLoss now periodDays salesHistory menuItems
        operationalCosts wasteHistory).netProfit
      = -((calculateProfitLoss now periodDays salesHistory menuItems
            operationalCosts wasteHistory).totalOperationalCost
          + (calculateProfitLoss now periodDays salesHistory menuItems
            operationalCosts wasteHistory).totalWasteCost) := by
  refine ⟨?_, ?_, ?_, ?_⟩ <;>
    simp only [calculateProfitLoss, h, List.foldl_nil] <;>
    norm_num
  ring

/-- C5 witness: with a single sales record 10 days old, a 7 day period
anchored at day 0, one monthly operational cost of 300 and one kept waste
record of cost 20, the statement has totalRevenue 0, both margins 0, and
netProfit -(70 + 20). -/
theorem calculateProfitLoss_zero_sales_witness :
    (calculateProfitLoss 0 7 [⟨-10, "m", 1, 50, "o"⟩] []
        [⟨"c", "Rent", 300, CostInterval.monthly, "o"⟩]
        [⟨"w", 0, "i", 2, "Spoiled", 20, "o"⟩]).totalRevenue = 0
    ∧ (calculateProfitLoss 0 7 [⟨-10, "m", 1, 50, "o"⟩] []
        [⟨"c", "Rent", 300, CostInterval.monthly, "o"⟩]
        [⟨"w", 0, "i", 2, "Spoiled", 20, "o"⟩]).grossProfitMargin = 0
    ∧ (calculateProfitLoss 0 7 [⟨-10, "m", 1, 50, "o"⟩] []
        [⟨"c", "Rent", 300, CostInterval.monthly, "o"⟩]
        [⟨"w", 0, "i", 2, "Spoiled", 20, "o"⟩]).netProfitMargin = 0
    ∧ (calculateProfitLoss 0 7 [⟨-10, "m", 1, 50, "o"⟩] []
        [⟨"c", "Rent", 300, CostInterval.monthly, "o"⟩]
        [⟨"w", 0, "i", 2, "Spoiled", 20, "o"⟩]).netProfit
      = -((calculateProfitLoss 0 7 [⟨-10, "m", 1, 50, "o"⟩] []
            [⟨"c", "Rent", 300, CostInterval.monthly, "o"⟩]
            [⟨"w", 0, "i", 2, "Spoiled", 20, "o"⟩]).totalOperationalCost
          + (calculateProfitLoss 0 7 [⟨-10, "m", 1, 50, "o"⟩] []
            [⟨"c", "Rent", 300, CostInterval.monthly, "o"⟩]
            [⟨"w", 0, "i", 2, "Spoiled", 20, "o"⟩]).totalWasteCost) :=
  calculateProfitLoss_zero_sales 0 7 [⟨-10, "m", 1, 50, "o"⟩] []
    [⟨"c", "Rent", 300, CostInterval.monthly, "o"⟩]
    [⟨"w", 0, "i", 2, "Spoiled", 20, "o"⟩] (by norm_num)

/-- Date labels of the daily revenue chart: the dateRange days ending
today, oldest first (the source loop runs i from dateRange - 1 down to 0
and pushes today - i). -/
def chartLabels (today : ℤ) (dateRange : ℕ) : List ℤ :=
  (List.range dateRange).map fun j : ℕ =>
    today - ((dateRange : ℤ) - 1 - (j : ℤ))

/-- The salesHistoryForRange memo: records dated on or after
now - dateRange days. -/
def salesHistoryForRange (now : ℚ) (dateRange : ℕ)
    (salesHistory : List SalesHistoryRecord) : List SalesHistoryRecord :=
  salesHistory.filter fun record => (record.date : ℚ) ≥ now - dateRange

/-- Revenue accumulated for one calendar day: the sum of totalRevenue over
the records dated exactly that day. -/
def dayRevenue (l : List SalesHistoryRecord) (d : ℤ) : ℚ :=
  ((l.filter fun record => record.date = d).map
    SalesHistoryRecord.totalRevenue).sum

/-- The chartData memo.  The source initialises an insertion-ordered
dictionary with one zero entry per label (the labels are pairwise
distinct) and folds every in-range record into the bucket matching its
date, records dated outside the label set being dropped; reading the
values back in insertion order therefore yields, for each label in order,
the sum of totalRevenue of the in-range records dated that day. -/
def chartData (now : ℚ) (dateRange : ℕ)
    (salesHistory : List SalesHistoryRecord) : List ℤ × List ℚ :=
  let labels := chartLabels ⌊now⌋ dateRange
  let inRange := salesHistoryForRange now dateRange salesHistory
  (labels, labels.map fun d => dayRevenue inRange d)

theorem dayRevenue_cons (r : SalesHistoryRecord) (l : List SalesHistoryRecord)
    (d : ℤ) :
    dayRevenue (r :: l) d
      = (if r.date = d then r.totalRevenue else 0) + dayRevenue l d := by
  by_cases h : r.date = d <;> simp [dayRevenue, List.filter_cons, h]

theorem sum_map_ite_mem (ds : List ℤ) (hnd : ds.Nodup) (x : ℤ) (c : ℚ) :
    ((ds.map fun d => if x = d then c else 0).sum)
      = if x ∈ ds then c else 0 := by
  induction ds with
  | nil => simp
  | cons d ds ih =>
    rcases List.nodup_cons.mp hnd with ⟨hd, hnd2⟩
    by_cases h : x = d
    · subst h; simp [ih hnd2, hd]
    · simp [h, ih hnd2]

theorem sum_map_add_pointwise (f g : ℤ → ℚ) (ds : List ℤ) :
    ((ds.map fun d => f d + g d).sum) = (ds.map f).sum + (ds.map g).sum := by
  induction ds with
  | nil => simp
  | cons d ds ih => simp only [List.map_cons, List.sum_cons, ih]; ring

theorem sum_dayRevenue (ds : List ℤ) (hnd : ds.Nodup)
    (l : List SalesHistoryRecord) :
    ((ds.map (dayRevenue l)).sum)
      = ((l.filter fun r => r.date ∈ ds).map
          SalesHistoryRecord.totalRevenue).sum := by
  induction l with
  | nil =>
    have h0 : dayRevenue ([] : List SalesHistoryRecord) = fun _ => 0 := by
      funext d
      simp [dayRevenue]
    simp [h0]
  | cons r l ih =>
    have h1 : ds.map (dayRevenue (r :: l))
        = ds.map fun d =>
            (if r.date = d then r.totalRevenue else 0) + dayRevenue l d := by
      refine List.map_congr_left fun d _ => ?_
      exact dayRevenue_cons r l d
    have h2 : (ds.map fun d => dayRevenue l d) = ds.map (dayRevenue l) := rfl
    rw [h1, sum_map_add_pointwise, sum_map_ite_mem ds hnd, h2, ih,
      List.filter_cons]
    by_cases h : r.date ∈ ds <;> simp [h]

theorem chartLabels_nodup (today : ℤ) (dateRange : ℕ) :
    (chartLabels today dateRange).Nodup := by
  rw [chartLabels]
  refine List.Nodup.map ?_ (List.nodup_range dateRange)
  intro a b h
  dsimp only at h
  omega

theorem chartLabels_pairwise (today : ℤ) (dateRange : ℕ) :
    (chartLabels today dateRange).Pairwise (· < ·) := by
  rw [chartLabels]
  refine List.Pairwise.map _ ?_ (List.pairwise_lt_range dateRange)
  intro a b h
  omega

theorem chartLabels_lower (today : ℤ) (dateRange : ℕ) (d : ℤ)
    (hd : d ∈ chartLabels today dateRange) :
    today - ((dateRange : ℤ) - 1) ≤ d := by
  simp only [chartLabels, List.mem_map, List.mem_range] at hd
  obtain ⟨j, _, rfl⟩ := hd
  omega

theorem dayRevenue_forRange (now : ℚ) (dateRange : ℕ)
    (l : List SalesHistoryRecord) (d : ℤ)
    (hd : ⌊now⌋ - ((dateRange : ℤ) - 1) ≤ d) :
    dayRevenue (salesHistoryForRange now dateRange l) d = dayRevenue l d := by
  have hfl : (salesHistoryForRange now dateRange l).filter
        (fun r => r.date = d)
      = l.filter fun r => r.date = d := by
    rw [salesHistoryForRange, List.filter_comm]
    refine List.filter_eq_self.mpr fun r hr => ?_
    have hrd : r.date = d := by
      have := (List.mem_filter.mp hr).2
      simpa using this
    have hfloor : now < (⌊now⌋ : ℚ) + 1 := Int.lt_floor_add_one now
    have hcast : ((⌊now⌋ : ℤ) : ℚ) - ((dateRange : ℕ) : ℚ) + 1 ≤ (d : ℚ) := by
      have : ((⌊now⌋ - ((dateRange : ℤ) - 1) : ℤ) : ℚ) ≤ ((d : ℤ) : ℚ) := by
        exact_mod_cast hd
      push_cast at this
      linarith
    simp only [decide_eq_true_eq, ge_iff_le, hrd]
    linarith
  simp [dayRevenue, hfl]

/-- C4: for every window length, reference clock and sales history, the
daily revenue series has exactly dateRange entries; the label list is the
dateRange days ending today in strictly increasing (oldest first) order;
the value at each label is the sum of totalRevenue over the records of the
history dated exactly that day (0 when none matches); and the series total
equals the total revenue of the records whose date falls inside the
window. -/
theorem chartData_daily_series (now : ℚ) (dateRange : ℕ)
    (salesHistory : List SalesHistoryRecord) :
    ((chartData now dateRange salesHistory).2).length = dateRange
    ∧ (chartData now dateRange salesHistory).1 = chartLabels ⌊now⌋ dateRange
    ∧ (chartLabels ⌊now⌋ dateRange).Pairwise (· < ·)
    ∧ (chartData now dateRange salesHistory).2
        = (chartLabels ⌊now⌋ dateRange).map (dayRevenue salesHistory)
    ∧ ((chartData now dateRange salesHistory).2).sum
        = ((salesHistory.filter fun r =>
              r.date ∈ chartLabels ⌊now⌋ dateRange).map
            SalesHistoryRecord.totalRevenue).sum := by
  have hmap : (chartData now dateRange salesHistory).2
      = (chartLabels ⌊now⌋ dateRange).map (dayRevenue salesHistory) := by
    simp only [chartData]
    refine List.map_congr_left fun d hd => ?_
    exact dayRevenue_forRange now dateRange salesHistory d
      (chartLabels_lower _ _ _ hd)
  refine ⟨?_, rfl, chartLabels_pairwise _ _, hmap, ?_⟩
  · rw [hmap]
    simp [chartLabels]
  · rw [hmap, sum_dayRevenue _ (chartLabels_nodup _ _)]

/-- A price-spike alert as pushed by the marginAlerts memo. -/
structure MarginAlert where
  ingredientName : String
  priceIncreasePercent : ℤ
  affectedMenus : List String
  deriving DecidableEq, Repr

/-- Names of the menu items whose recipe references the ingredient. -/
def affectedMenus (menuItems : List MenuItem) (ing : Ingredient) :
    List String :=
  (menuItems.filter fun m =>
    m.recipe.any fun r => r.ingredientId = ing.id).map MenuItem.name

/-- Alerts contributed by one ingredient inside the marginAlerts loop.
The source guard is the JavaScript truthiness test
ing.previousPrice && ing.price > ing.previousPrice, which holds exactly
when previousPrice is present, non-zero, and below the current price; the
percent increase is then compared strictly against 10 and the alert is
pushed only when at least one menu item is affected.  Math.round agrees
with Mathlib's round on the values reaching it. -/
def ingredientAlerts (menuItems : List MenuItem) (ing : Ingredient) :
    List MarginAlert :=
  match ing.previousPrice with
  | none => []
  | some previousPrice =>
    if previousPrice ≠ 0 ∧ ing.price > previousPrice then
      let priceIncreasePercent : ℚ :=
        (ing.price - previousPrice) / previousPrice * 100
      if priceIncreasePercent > 10 then
        let affected := affectedMenus menuItems ing
        if affected ≠ [] then
          [{ ingredientName := ing.name,
             priceIncreasePercent := round priceIncreasePercent,
             affectedMenus := affected }]
        else []
      else []
    else []

/-- The marginAlerts memo: the forEach over the outlet ingredients pushes
each ingredient's alerts in order. -/
def marginAlerts (ingredients : List Ingredient)
    (menuItems : List MenuItem) : List MarginAlert :=
  ingredients.flatMap (ingredientAlerts menuItems)

theorem ingredientAlerts_none (menuItems : List MenuItem) (ing : Ingredient)
    (hp : ing.previousPrice = none) :
    ingredientAlerts menuItems ing = [] := by
  simp [ingredientAlerts, hp]

theorem ingredientAlerts_some (menuItems : List MenuItem) (ing : Ingredient)
    (p : ℚ) (hp : ing.previousPrice = some p) :
    ingredientAlerts menuItems ing
      = (if p ≠ 0 ∧ ing.price > p then
          if (ing.price - p) / p * 100 > 10 then
            if affectedMenus menuItems ing ≠ [] then
              [{ ingredientName := ing.name,
                 priceIncreasePercent := round ((ing.price - p) / p * 100),
                 affectedMenus := affectedMenus menuItems ing }]
            else []
          else []
        else []) := by
  simp only [ingredientAlerts, hp]

/-- C6: an ingredient emits a price-spike alert if and only if its
previousPrice exists, the price rose, the percent increase strictly
exceeds 10, and at least one menu item's recipe references it; the emitted
alert is then unique and carries the ingredient name, the rounded percent
increase, and the affected menu-item names.  (When previousPrice is 0 the
percent-increase expression is 0 in the rational model, so the
equivalence also covers the JavaScript truthiness guard that skips a zero
previousPrice.) -/
theorem marginAlerts_spec (menuItems : List MenuItem) (ing : Ingredient) :
    (marginAlerts [ing] menuItems ≠ [] ↔
      ∃ previousPrice, ing.previousPrice = some previousPrice
        ∧ ing.price > previousPrice
        ∧ (ing.price - previousPrice) / previousPrice * 100 > 10
        ∧ affectedMenus menuItems ing ≠ [])
    ∧ ∀ previousPrice, ing.previousPrice = some previousPrice →
        ing.price > previousPrice →
        (ing.price - previousPrice) / previousPrice * 100 > 10 →
        affectedMenus menuItems ing ≠ [] →
        marginAlerts [ing] menuItems
          = [{ ingredientName := ing.name,
               priceIncreasePercent :=
                 round ((ing.price - previousPrice) / previousPrice * 100),
               affectedMenus := affectedMenus menuItems ing }] := by
  have hsingle : marginAlerts [ing] menuItems
      = ingredientAlerts menuItems ing := by
    simp [marginAlerts]
  have hzero : ∀ q : ℚ, (ing.price - q) / q * 100 > 10 → q ≠ 0 := by
    intro q hq h0
    rw [h0, div_zero, zero_mul] at hq
    norm_num at hq
  constructor
  · rw [hsingle]
    cases hp : ing.previousPrice with
    | none =>
      simp [ingredientAlerts_none menuItems ing hp, hp]
    | some p =>
      rw [ingredientAlerts_some menuItems ing p hp]
      constructor
      · intro hne
        by_cases h1 : p ≠ 0 ∧ ing.price > p
        · rw [if_pos h1] at hne
          by_cases h2 : (ing.price - p) / p * 100 > 10
          · rw [if_pos h2] at hne
            by_cases h3 : affectedMenus menuItems ing ≠ []
            · exact ⟨p, rfl, h1.2, h2, h3⟩
            · rw [if_neg h3] at hne
              exact absurd rfl hne
          · rw [if_neg h2] at hne
            exact absurd rfl hne
        · rw [if_neg h1] at hne
          exact absurd rfl hne
      · rintro ⟨q, hq, hgt, hpct, haff⟩
        injection hq with hq
        subst hq
        rw [if_pos ⟨hzero p hpct, hgt⟩, if_pos hpct, if_pos haff]
        simp
  · intro q hq hgt hpct haff
    rw [hsingle, ingredientAlerts_some menuItems ing q hq,
      if_pos ⟨hzero q hpct, hgt⟩, if_pos hpct, if_pos haff]

/-- C6 witness: a 100 to 111 price change (11 percent) on an ingredient
used by one menu item yields exactly one alert with priceIncreasePercent
11, while a 100 to 105 change (5 percent) yields none. -/
theorem marginAlerts_spec_witness :
    marginAlerts [⟨"i1", "Cheese", "kg", 111, some 100, 5, 2, "o1"⟩]
        [⟨"m1", "Pizza", 50, 60, [⟨"i1", 1⟩], 0, 100, MarginStatus.Safe⟩]
      = [⟨"Cheese", 11, ["Pizza"]⟩]
    ∧ marginAlerts [⟨"i2", "Milk", "l", 105, some 100, 5, 2, "o1"⟩]
        [⟨"m2", "Latte", 50, 60, [⟨"i2", 1⟩], 0, 100, MarginStatus.Safe⟩]
      = [] := by
  constructor
  · have h := (marginAlerts_spec
        [⟨"m1", "Pizza", 50, 60, [⟨"i1", 1⟩], 0, 100, MarginStatus.Safe⟩]
        ⟨"i1", "Cheese", "kg", 111, some 100, 5, 2, "o1"⟩).2 100 rfl
        (by norm_num) (by norm_num) (by simp [affectedMenus])
    rw [h]
    norm_num [affectedMenus, round_eq]
  · have h := (marginAlerts_spec
        [⟨"m2", "Latte", 50, 60, [⟨"i2", 1⟩], 0, 100, MarginStatus.Safe⟩]
        ⟨"i2", "Milk", "l", 105, some 100, 5, 2, "o1"⟩).1
    refine not_ne_iff.mp fun hne => ?_
    obtain ⟨q, hq, _, hpct, _⟩ := h.mp hne
    have hq100 : q = 100 := by
      have : some (100 : ℚ) = some q := hq
      injection this with h2
      exact h2.symm
    rw [hq100] at hpct
    norm_num at hpct

/-- The single active campaign (at most one row system-wide). -/
structure ActiveCampaign where
  campaignName : String
  item1Name : String
  item2Name : String
  startDate : ℚ
  deriving DecidableEq, Repr

/-- Output of the campaign performance evaluator. -/
structure CampaignPerformance where
  daysRunning : ℤ
  percentageChange : ℚ
  deriving DecidableEq, Repr

/-- Days the campaign has been running: the ceiling of the elapsed time in
days (Math.ceil on the millisecond difference divided by one day). -/
def campaignDaysRunning (now : ℚ) (c : ActiveCampaign) : ℤ :=
  ⌈now - c.startDate⌉

/-- The divisor daysRunning || 1 used by both averages: 1 when daysRunning
is 0 (JavaScript falsiness of 0), daysRunning itself otherwise. -/
def daysDivisor (now : ℚ) (c : ActiveCampaign) : ℚ :=
  if campaignDaysRunning now c = 0 then 1 else (campaignDaysRunning now c : ℚ)

/-- Ids of the menu items whose name matches one of the two names recorded
on the campaign (name-based matching). -/
def involvedItemIds (c : ActiveCampaign) (menuItems : List MenuItem) :
    List String :=
  (menuItems.filter fun m =>
    m.name = c.item1Name ∨ m.name = c.item2Name).map MenuItem.id

/-- Sales of involved items dated on or after the campaign start. -/
def salesDuringCampaign (c : ActiveCampaign) (menuItems : List MenuItem)
    (allSalesHistory : List SalesHistoryRecord) : List SalesHistoryRecord :=
  allSalesHistory.filter fun s =>
    (s.date : ℚ) ≥ c.startDate ∧ s.menuItemId ∈ involvedItemIds c menuItems

/-- Average daily units of involved items sold during the campaign. -/
def avgDailyUnitsDuring (now : ℚ) (c : ActiveCampaign)
    (menuItems : List MenuItem)
    (allSalesHistory : List SalesHistoryRecord) : ℚ :=
  ((salesDuringCampaign c menuItems allSalesHistory).foldl
    (fun sum s => sum + (s.quantitySold : ℚ)) 0) / daysDivisor now c

/-- Sales of involved items in the window of the same length immediately
preceding the campaign start. -/
def salesBeforeCampaign (now : ℚ) (c : ActiveCampaign)
    (menuItems : List MenuItem)
    (allSalesHistory : List SalesHistoryRecord) : List SalesHistoryRecord :=
  allSalesHistory.filter fun s =>
    (s.date : ℚ) ≥ c.startDate - (campaignDaysRunning now c : ℚ)
    ∧ (s.date : ℚ) < c.startDate
    ∧ s.menuItemId ∈ involvedItemIds c menuItems

/-- Average daily units of involved items sold before the campaign. -/
def avgDailyUnitsBefore (now : ℚ) (c : ActiveCampaign)
    (menuItems : List MenuItem)
    (allSalesHistory : List SalesHistoryRecord) : ℚ :=
  ((salesBeforeCampaign now c menuItems allSalesHistory).foldl
    (fun sum s => sum + (s.quantitySold : ℚ)) 0) / daysDivisor now c

/-- The campaignPerformance memo: null when no campaign is active,
otherwise daysRunning together with the percentage change of the average
daily units sold, guarded against a zero before-average. -/
def campaignPerformance (now : ℚ) (activeCampaign : Option ActiveCampaign)
    (menuItems : List MenuItem)
    (allSalesHistory : List SalesHistoryRecord) :
    Option CampaignPerformance :=
  match activeCampaign with
  | none => none
  | some c =>
    let percentageChange : ℚ :=
      if avgDailyUnitsBefore now c menuItems allSalesHistory > 0 then
        (avgDailyUnitsDuring now c menuItems allSalesHistory
          - avgDailyUnitsBefore now c menuItems allSalesHistory)
          / avgDailyUnitsBefore now c menuItems allSalesHistory * 100
      else if avgDailyUnitsDuring now c menuItems allSalesHistory > 0 then 100
      else 0
    some ⟨campaignDaysRunning now c, percentageChange⟩

/-- C7: the campaign evaluator yields nothing when no campaign is active;
for an active campaign it yields daysRunning together with a
percentageChange equal to (during - before) / before * 100 when the
before-average is positive, 100 when the before-average is 0 and the
during-average positive, and 0 when both averages are 0. -/
theorem campaignPerformance_spec (now : ℚ) (menuItems : List MenuItem)
    (allSalesHistory : List SalesHistoryRecord) :
    campaignPerformance now none menuItems allSalesHistory = none
    ∧ ∀ c : ActiveCampaign,
        (campaignPerformance now (some c) menuItems allSalesHistory).isSome
          = true
        ∧ (campaignPerformance now (some c) menuItems allSalesHistory).map
            CampaignPerformance.daysRunning = some (campaignDaysRunning now c)
        ∧ (avgDailyUnitsBefore now c menuItems allSalesHistory > 0 →
            (campaignPerformance now (some c) menuItems allSalesHistory).map
              CampaignPerformance.percentageChange
            = some ((avgDailyUnitsDuring now c menuItems allSalesHistory
                - avgDailyUnitsBefore now c menuItems allSalesHistory)
                / avgDailyUnitsBefore now c menuItems allSalesHistory * 100))
        ∧ (avgDailyUnitsBefore now c menuItems allSalesHistory = 0 →
            avgDailyUnitsDuring now c menuItems allSalesHistory > 0 →
            (campaignPerformance now (some c) menuItems allSalesHistory).map
              CampaignPerformance.percentageChange = some 100)
        ∧ (avgDailyUnitsBefore now c menuItems allSalesHistory = 0 →
            avgDailyUnitsDuring now c menuItems allSalesHistory = 0 →
            (campaignPerformance now (some c) menuItems allSalesHistory).map
              CampaignPerformance.percentageChange = some 0) := by
  refine ⟨rfl, fun c => ⟨rfl, rfl, fun hpos => ?_, fun h0 hd => ?_,
    fun h0 hd => ?_⟩⟩
  · simp only [campaignPerformance]
    rw [if_pos hpos]
    rfl
  · simp only [campaignPerformance]
    rw [if_neg (by rw [h0]; exact lt_irrefl 0), if_pos hd]
    rfl
  · simp only [campaignPerformance]
    rw [if_neg (by rw [h0]; exact lt_irrefl 0),
      if_neg (by rw [hd]; exact lt_irrefl 0)]
    rfl

/-- Concrete campaign for the C7 witness: started at day 0. -/
def campaignW : ActiveCampaign := ⟨"Promo", "Pizza", "Latte", 0⟩

/-- Concrete involved menu item for the C7 witness. -/
def menuW : MenuItem := ⟨"m1", "Pizza", 50, 60, [], 0, 100, MarginStatus.Safe⟩

/-- Concrete sales history for the C7 witness: 6 units of the involved
item sold on day 1, nothing before the campaign start. -/
def salesW : List SalesHistoryRecord := [⟨1, "m1", 6, 60, "o"⟩]

/-- C7 witness: three days into the concrete campaign, with no prior
sales and 6 units sold during it, the evaluator reports daysRunning 3 and
percentageChange 100. -/
theorem campaignPerformance_spec_witness :
    (campaignPerformance 3 (some campaignW) [menuW] salesW).map
      CampaignPerformance.percentageChange = some 100
    ∧ (campaignPerformance 3 (some campaignW) [menuW] salesW).map
      CampaignPerformance.daysRunning = some 3 := by
  have hdays : campaignDaysRunning 3 campaignW = 3 := by
    rw [campaignDaysRunning, campaignW]
    norm_num
  have hdiv : daysDivisor 3 campaignW = 3 := by
    rw [daysDivisor, hdays]
    norm_num
  have hbefore : avgDailyUnitsBefore 3 campaignW [menuW] salesW = 0 := by
    rw [avgDailyUnitsBefore]
    have : salesBeforeCampaign 3 campaignW [menuW] salesW = [] := by
      simp [salesBeforeCampaign, salesW, campaignW]
    rw [this]
    simp
  have hduring : avgDailyUnitsDuring 3 campaignW [menuW] salesW > 0 := by
    rw [avgDailyUnitsDuring, hdiv]
    have : salesDuringCampaign campaignW [menuW] salesW = salesW := by
      simp [salesDuringCampaign, salesW, campaignW, involvedItemIds, menuW]
    rw [this]
    norm_num [salesW]
  have h := (campaignPerformance_spec 3 [menuW] salesW).2 campaignW
  refine ⟨h.2.2.2.1 hbefore hduring, ?_⟩
  rw [h.2.1, hdays]

/-- Structured result of a guarded mutation: success flag plus an optional
user-facing message. -/
structure DeleteResult where
  success : Bool
  message : Option String
  deriving DecidableEq, Repr

/-- The in-memory snapshot held by the data hook: the selected outlet and
the globally loaded entity lists. -/
structure DBState where
  currentOutletId : String
  allIngredients : List Ingredient
  menuItemsData : List MenuItemData
  recipes : List RecipeRow
  allSalesHistory : List SalesHistoryRecord
  allOperationalCosts : List OperationalCost
  allWasteHistory : List WasteRecord
  allPendingOrders : List PendingOrder
  deriving DecidableEq, Repr

/-- Message returned when an ingredient still used in a recipe is
deleted. -/
def deleteIngredientMessage : String :=
  "Bahan ini masih digunakan dalam resep. Hapus dari resep terlebih dahulu."

/-- The deleteIngredient mutation: refused with a structured failure when
any recipe row references the ingredient (no store write happens);
otherwise the store delete removes the rows with that id and the reload
reflects it. -/
def deleteIngredient (st : DBState) (id : String) : DBState × DeleteResult :=
  if st.recipes.any fun r => r.ingredientId = id then
    (st, ⟨false, some deleteIngredientMessage⟩)
  else
    ({ st with allIngredients := st.allIngredients.filter fun i => ¬i.id = id },
     ⟨true, none⟩)

/-- C8: deleting an ingredient referenced by some recipe component returns
success false with a message and leaves the whole state (ingredients and
recipes included) unchanged, while deleting an unreferenced ingredient
returns success true, removes exactly the rows with that id, and leaves
the recipes unchanged. -/
theorem deleteIngredient_spec (st : DBState) (id : String) :
    ((st.recipes.any fun r => r.ingredientId = id) = true →
      deleteIngredient st id = (st, ⟨false, some deleteIngredientMessage⟩))
    ∧ ((st.recipes.any fun r => r.ingredientId = id) = false →
      (deleteIngredient st id).2 = ⟨true, none⟩
      ∧ (deleteIngredient st id).1.allIngredients
          = (st.allIngredients.filter fun i => ¬i.id = id)
      ∧ (deleteIngredient st id).1.recipes = st.recipes
      ∧ ∀ i ∈ (deleteIngredient st id).1.allIngredients, ¬i.id = id) := by
  constructor
  · intro h
    rw [deleteIngredient, if_pos h]
  · intro h
    rw [deleteIngredient, if_neg (by simp [h])]
    refine ⟨rfl, rfl, rfl, fun i hi => ?_⟩
    have := (List.mem_filter.mp hi).2
    simpa using this

/-- C8 witness state: one ingredient referenced by one recipe row. -/
def stReferenced : DBState :=
  ⟨"o1", [⟨"i1", "Flour", "kg", 10, none, 5, 2, "o1"⟩], [],
   [⟨"m1", "i1", 2⟩], [], [], [], []⟩

/-- C8 witness state: the same ingredient with no recipe rows. -/
def stUnreferenced : DBState :=
  ⟨"o1", [⟨"i1", "Flour", "kg", 10, none, 5, 2, "o1"⟩], [], [], [], [], [],
   []⟩

/-- C8 witness: deleting the referenced ingredient fails with the message
and changes nothing; deleting the unreferenced one succeeds and removes
it. -/
theorem deleteIngredient_spec_witness :
    deleteIngredient stReferenced "i1"
      = (stReferenced, ⟨false, some deleteIngredientMessage⟩)
    ∧ (deleteIngredient stUnreferenced "i1").2 = ⟨true, none⟩
    ∧ (deleteIngredient stUnreferenced "i1").1.allIngredients = [] := by
  have h1 := (deleteIngredient_spec stReferenced "i1").1 (by simp [stReferenced])
  have h2 := (deleteIngredient_spec stUnreferenced "i1").2
    (by simp [stUnreferenced])
  refine ⟨h1, h2.1, ?_⟩
  rw [h2.2.1]
  simp [stUnreferenced]

/-- Ingredients of the selected outlet. -/
def scopedIngredients (st : DBState) : List Ingredient :=
  st.allIngredients.filter fun i => i.outletId = st.currentOutletId

/-- Sales history of the selected outlet. -/
def scopedSalesHistory (st : DBState) : List SalesHistoryRecord :=
  st.allSalesHistory.filter fun s => s.outletId = st.currentOutletId

/-- Operational costs of the selected outlet. -/
def scopedOperationalCosts (st : DBState) : List OperationalCost :=
  st.allOperationalCosts.filter fun cst => cst.outletId = st.currentOutletId

/-- Waste records of the selected outlet. -/
def scopedWasteHistory (st : DBState) : List WasteRecord :=
  st.allWasteHistory.filter fun w => w.outletId = st.currentOutletId

/-- The costed menu catalog of a snapshot: the menuItems memo applied to
the outlet-scoped ingredients, the raw menu items and the recipe rows. -/
def stMenuItems (st : DBState) : List MenuItem :=
  computeMenuItems (scopedIngredients st) st.menuItemsData st.recipes

/-- The dashboardStats memo of a snapshot for a given clock value and
window length. -/
structure DashboardStats where
  totalRevenue : ℚ
  netProfit : ℚ
  lowStockCount : ℕ
  totalItemsSold : ℕ
  averageMargin : ℚ
  deriving DecidableEq, Repr

/-- The dashboardStats memo: window revenue and items sold from the
in-range sales, netProfit taken from calculateProfitLoss applied to the
outlet-scoped snapshot, low-stock count and average margin. -/
def dashboardStats (now : ℚ) (dateRange : ℕ) (st : DBState) :
    DashboardStats :=
  let inRange := salesHistoryForRange now dateRange (scopedSalesHistory st)
  let totalRevenue : ℚ := inRange.foldl (fun sum r => sum + r.totalRevenue) 0
  let netProfit := (calculateProfitLoss now dateRange (scopedSalesHistory st)
      (stMenuItems st) (scopedOperationalCosts st)
      (scopedWasteHistory st)).netProfit
  let lowStockCount := ((scopedIngredients st).filter fun ing =>
      ing.stockLevel ≤ ing.reorderPoint).length
  let totalItemsSold : ℕ :=
    inRange.foldl (fun sum r => sum + r.quantitySold) 0
  let menuItems := stMenuItems st
  let averageMargin : ℚ :=
    if menuItems.length > 0 then
      (menuItems.foldl (fun sum m => sum + m.actualMargin) 0)
        / menuItems.length
    else 0
  ⟨totalRevenue, netProfit, lowStockCount, totalItemsSold, averageMargin⟩

/-- The profitLossStats memo: calculateProfitLoss applied to the selected
window and the outlet-scoped snapshot. -/
def profitLossStats (now : ℚ) (dateRange : ℕ) (st : DBState) :
    ProfitLossStats :=
  calculateProfitLoss now dateRange (scopedSalesHistory st) (stMenuItems st)
    (scopedOperationalCosts st) (scopedWasteHistory st)

/-- C10: for the same snapshot, clock value and window length, the
netProfit shown by the dashboard statistics is exactly the netProfit of
the full profit-and-loss statement: both memos call calculateProfitLoss
on identical inputs. -/
theorem dashboardStats_netProfit_refines (now : ℚ) (dateRange : ℕ)
    (st : DBState) :
    (dashboardStats now dateRange st).netProfit
      = (profitLossStats now dateRange st).netProfit := rfl

/-- Quantity of one ingredient consumed per unit sold of a recipe: the sum
of the quantities of the components referencing it. -/
def recipeConsumption (recipe : List RecipeComponent) (ingId : String) : ℚ :=
  ((recipe.filter fun component => component.ingredientId = ingId).map
    RecipeComponent.quantity).sum

/-- Total consumption of one ingredient across a day's sales: each menu
item with a positive sold count contributes its per-unit recipe
consumption times the sold count. -/
def totalConsumption (menuItems : List MenuItem) (sales : String → ℕ)
    (ingId : String) : ℚ :=
  (menuItems.map fun m =>
    if sales m.id > 0 then
      recipeConsumption m.recipe ingId * (sales m.id : ℚ)
    else 0).sum

/-- Whether the ingredientsToUpdate map of processDailySales holds an
entry for the ingredient id: some sold menu item's recipe references it
and the outlet ingredient exists. -/
def hasConsumptionEntry (menuItems : List MenuItem) (sales : String → ℕ)
    (outletIngredients : List Ingredient) (ingId : String) : Bool :=
  (menuItems.any fun m =>
    sales m.id > 0 ∧ m.recipe.any fun component =>
      component.ingredientId = ingId)
  && outletIngredients.any fun i => i.id = ingId

/-- The processDailySales mutation: inserts one sales record per menu item
with a positive sold count (revenue = sold count times selling price) and
writes back, for every ingredient with a consumption entry, a stock level
of max 0 (stock - consumption), the stock value being read from the
outlet-scoped ingredient found by id. -/
def processDailySales (today : ℤ) (st : DBState) (sales : String → ℕ) :
    DBState :=
  let menuItems := stMenuItems st
  let outletIngredients := scopedIngredients st
  let newRecords : List SalesHistoryRecord :=
    (menuItems.filter fun m => sales m.id > 0).map fun m =>
      { date := today, menuItemId := m.id, quantitySold := sales m.id,
        totalRevenue := (sales m.id : ℚ) * m.sellingPrice,
        outletId := st.currentOutletId }
  { st with
    allSalesHistory := st.allSalesHistory ++ newRecords,
    allIngredients := st.allIngredients.map fun i =>
      if hasConsumptionEntry menuItems sales outletIngredients i.id then
        match outletIngredients.find? fun i0 => i0.id = i.id with
        | some i0 =>
            { i with stockLevel := (
                max 0 (i0.stockLevel - totalConsumption menuItems sales i.id)) }
        | none => i
      else i }

/-- Input of the addWasteRecord mutation (the cost is derived, the outlet
ambient). -/
structure WasteInput where
  ingredientId : String
  date : ℤ
  quantity : ℚ
  reason : String
  deriving DecidableEq, Repr

/-- The addWasteRecord mutation: a no-op when the ingredient is not found
in the outlet; otherwise appends a waste record costed at the current
ingredient price and writes back a stock level of max 0 (stock -
quantity). -/
def addWasteRecord (st : DBState) (record : WasteInput) : DBState :=
  match (scopedIngredients st).find? fun i => i.id = record.ingredientId with
  | none => st
  | some ingredient =>
    let cost := ingredient.price * record.quantity
    { st with
      allWasteHistory := st.allWasteHistory ++
        [{ id := "w-new", date := record.date,
           ingredientId := record.ingredientId,
           quantity := record.quantity, reason := record.reason,
           cost := cost, outletId := st.currentOutletId }],
      allIngredients := st.allIngredients.map fun i =>
        if i.id = record.ingredientId then
          { i with stockLevel := (
              max 0 (ingredient.stockLevel - record.quantity)) }
        else i }

/-- Total quantity of one ingredient ordered on a pending order (the
updatedStockMap accumulates duplicate lines). -/
def orderQuantity (items : List OrderItem) (ingId : String) : ℚ :=
  ((items.filter fun item => item.ingredientId = ingId).map
    OrderItem.quantityToOrder).sum

/-- The receiveStock mutation: a no-op when no pending order of the
selected outlet has the id; otherwise adds the ordered quantity of every
referenced ingredient to its stock (the stock value being read from the
global ingredient list by id) and deletes the order. -/
def receiveStock (st : DBState) (orderId : String) : DBState :=
  match (st.allPendingOrders.filter fun o =>
      o.outletId = st.currentOutletId).find? fun o => o.id = orderId with
  | none => st
  | some order =>
    { st with
      allIngredients := st.allIngredients.map fun i =>
        if order.items.any fun item => item.ingredientId = i.id then
          match st.allIngredients.find? fun i0 => i0.id = i.id with
          | some i0 =>
              { i with stockLevel := (
                  i0.stockLevel + orderQuantity order.items i.id) }
          | none => i
        else i,
      allPendingOrders := st.allPendingOrders.filter fun o => ¬o.id = orderId }

theorem nodup_id_inj (l : List Ingredient)
    (hnd : (l.map Ingredient.id).Nodup) :
    ∀ a ∈ l, ∀ b ∈ l, a.id = b.id → a = b := fun _ ha _ hb hid =>
  List.inj_on_of_nodup_map hnd ha hb hid

theorem find?_id_self (l : List Ingredient)
    (hnd : (l.map Ingredient.id).Nodup) (i : Ingredient) (hi : i ∈ l) :
    (l.find? fun i0 => i0.id = i.id) = some i := by
  have hex : (l.find? fun i0 => i0.id = i.id).isSome = true := by
    rw [List.find?_isSome]
    exact ⟨i, hi, by simp⟩
  obtain ⟨j, hj⟩ := Option.isSome_iff_exists.mp hex
  have hmem := List.mem_of_find?_eq_some hj
  have hpj : j.id = i.id := by
    have := List.find?_some hj
    simpa using this
  rw [hj, nodup_id_inj l hnd j hmem i hi hpj]

theorem scoped_nodup (st : DBState)
    (hnd : (st.allIngredients.map Ingredient.id).Nodup) :
    ((scopedIngredients st).map Ingredient.id).Nodup :=
  List.Nodup.sublist ((st.allIngredients.filter_sublist).map Ingredient.id) hnd

theorem processDailySales_ingredients (today : ℤ) (st : DBState)
    (sales : String → ℕ)
    (hnd : (st.allIngredients.map Ingredient.id).Nodup) :
    (processDailySales today st sales).allIngredients
      = st.allIngredients.map fun i =>
          if hasConsumptionEntry (stMenuItems st) sales
              (scopedIngredients st) i.id then
            { i with stockLevel := (
                max 0 (i.stockLevel
                  - totalConsumption (stMenuItems st) sales i.id)) }
          else i := by
  simp only [processDailySales]
  refine List.map_congr_left fun i hi => ?_
  by_cases h : hasConsumptionEntry (stMenuItems st) sales
      (scopedIngredients st) i.id = true
  · rw [if_pos h, if_pos h]
    have hany : ((scopedIngredients st).any fun i0 => i0.id = i.id) = true := by
      have h2 := h
      simp only [hasConsumptionEntry, Bool.and_eq_true] at h2
      exact h2.2
    have hmem : i ∈ scopedIngredients st := by
      rw [List.any_eq_true] at hany
      obtain ⟨j, hj, hjid⟩ := hany
      have hjid2 : j.id = i.id := by simpa using hjid
      have hj_all : j ∈ st.allIngredients := List.mem_of_mem_filter hj
      rwa [nodup_id_inj _ hnd j hj_all i hi hjid2] at hj
    rw [find?_id_self _ (scoped_nodup st hnd) i hmem]
  · rw [if_neg h, if_neg h]

theorem processDailySales_nonneg (today : ℤ) (st : DBState)
    (sales : String → ℕ)
    (h0 : ∀ i ∈ st.allIngredients, 0 ≤ i.stockLevel) :
    ∀ i ∈ (processDailySales today st sales).allIngredients,
      0 ≤ i.stockLevel := by
  simp only [processDailySales]
  intro i hi
  rw [List.mem_map] at hi
  obtain ⟨j, hj, rfl⟩ := hi
  by_cases h : hasConsumptionEntry (stMenuItems st) sales
      (scopedIngredients st) j.id = true
  · rw [if_pos h]
    cases hf : (scopedIngredients st).find? fun i0 => i0.id = j.id with
    | none => exact h0 j hj
    | some i0 => exact le_max_left 0 _
  · rw [if_neg h]
    exact h0 j hj

theorem addWasteRecord_nonneg (st : DBState) (record : WasteInput)
    (h0 : ∀ i ∈ st.allIngredients, 0 ≤ i.stockLevel) :
    ∀ i ∈ (addWasteRecord st record).allIngredients, 0 ≤ i.stockLevel := by
  cases hf : (scopedIngredients st).find?
      fun i => i.id = record.ingredientId with
  | none =>
    simp only [addWasteRecord, hf]
    exact h0
  | some ing =>
    simp only [addWasteRecord, hf]
    intro i hi
    rw [List.mem_map] at hi
    obtain ⟨j, hj, rfl⟩ := hi
    by_cases h : j.id = record.ingredientId
    · rw [if_pos h]
      exact le_max_left 0 _
    · rw [if_neg h]
      exact h0 j hj

theorem addWasteRecord_ingredients (st : DBState) (record : WasteInput)
    (ing : Ingredient)
    (hnd : (st.allIngredients.map Ingredient.id).Nodup)
    (hf : (scopedIngredients st).find?
        (fun i => i.id = record.ingredientId) = some ing) :
    (addWasteRecord st record).allIngredients
      = st.allIngredients.map fun i =>
          if i.id = record.ingredientId then
            { i with stockLevel := max 0 (i.stockLevel - record.quantity) }
          else i := by
  simp only [addWasteRecord, hf]
  refine List.map_congr_left fun i hi => ?_
  by_cases h : i.id = record.ingredientId
  · rw [if_pos h, if_pos h]
    have hmem := List.mem_of_find?_eq_some hf
    have hing_id : ing.id = record.ingredientId := by
      have := List.find?_some hf
      simpa using this
    have heq : ing = i :=
      nodup_id_inj _ hnd ing (List.mem_of_mem_filter hmem) i hi
        (by rw [hing_id, h])
    rw [heq]
  · rw [if_neg h, if_neg h]

theorem receiveStock_state (st : DBState) (orderId : String)
    (order : PendingOrder)
    (hnd : (st.allIngredients.map Ingredient.id).Nodup)
    (hf : ((st.allPendingOrders.filter fun o =>
        o.outletId = st.currentOutletId).find?
        fun o => o.id = orderId) = some order) :
    (receiveStock st orderId).allIngredients
      = (st.allIngredients.map fun i =>
          if order.items.any fun item => item.ingredientId = i.id then
            { i with stockLevel := (
                i.stockLevel + orderQuantity order.items i.id) }
          else i)
    ∧ (receiveStock st orderId).allPendingOrders
      = st.allPendingOrders.filter fun o => ¬o.id = orderId := by
  simp only [receiveStock, hf]
  refine ⟨List.map_congr_left fun i hi => ?_, by trivial⟩
  by_cases h : (order.items.any fun item => item.ingredientId = i.id) = true
  · rw [if_pos h, if_pos h, find?_id_self _ hnd i hi]
  · rw [if_neg h, if_neg h]

theorem receiveStock_nonneg (st : DBState) (orderId : String)
    (hnd : (st.allIngredients.map Ingredient.id).Nodup)
    (h0 : ∀ i ∈ st.allIngredients, 0 ≤ i.stockLevel)
    (hq : ∀ o ∈ st.allPendingOrders, ∀ item ∈ o.items,
      0 ≤ item.quantityToOrder) :
    ∀ i ∈ (receiveStock st orderId).allIngredients, 0 ≤ i.stockLevel := by
  cases hf : (st.allPendingOrders.filter fun o =>
      o.outletId = st.currentOutletId).find? fun o => o.id = orderId with
  | none =>
    simp only [receiveStock, hf]
    exact h0
  | some order =>
    rw [(receiveStock_state st orderId order hnd hf).1]
    intro i hi
    rw [List.mem_map] at hi
    obtain ⟨j, hj, rfl⟩ := hi
    by_cases h : (order.items.any fun item => item.ingredientId = j.id) = true
    · rw [if_pos h]
      have horder : order ∈ st.allPendingOrders :=
        List.mem_of_mem_filter (List.mem_of_find?_eq_some hf)
      have hq0 : 0 ≤ orderQuantity order.items j.id := by
        refine List.sum_nonneg fun x hx => ?_
        rw [List.mem_map] at hx
        obtain ⟨item, hitem, rfl⟩ := hx
        exact hq order horder item (List.mem_of_mem_filter hitem)
      exact add_nonneg (h0 j hj) hq0
    · rw [if_neg h]
      exact h0 j hj

/-- C9: over a snapshot with well-formed ingredient ids, non-negative
stocks and non-negative ordered quantities, every stock mutation keeps
every stockLevel non-negative; moreover processDailySales writes each
consumed ingredient's stock as max 0 (stock - recipe consumption times
sold count), addWasteRecord writes the wasted ingredient's stock as max 0
(stock - quantity), and receiveStock adds to each referenced ingredient
exactly its ordered quantity and removes the received order. -/
theorem stock_invariant_spec (today : ℤ) (st : DBState)
    (sales : String → ℕ) (record : WasteInput) (orderId : String)
    (hnd : (st.allIngredients.map Ingredient.id).Nodup)
    (h0 : ∀ i ∈ st.allIngredients, 0 ≤ i.stockLevel)
    (hq : ∀ o ∈ st.allPendingOrders, ∀ item ∈ o.items,
      0 ≤ item.quantityToOrder) :
    (∀ i ∈ (processDailySales today st sales).allIngredients,
      0 ≤ i.stockLevel)
    ∧ (∀ i ∈ (addWasteRecord st record).allIngredients, 0 ≤ i.stockLevel)
    ∧ (∀ i ∈ (receiveStock st orderId).allIngredients, 0 ≤ i.stockLevel)
    ∧ (processDailySales today st sales).allIngredients
        = (st.allIngredients.map fun i =>
            if hasConsumptionEntry (stMenuItems st) sales
                (scopedIngredients st) i.id then
              { i with stockLevel := (
                  max 0 (i.stockLevel
                    - totalConsumption (stMenuItems st) sales i.id)) }
            else i)
    ∧ (∀ ing, (scopedIngredients st).find?
          (fun i => i.id = record.ingredientId) = some ing →
        (addWasteRecord st record).allIngredients
          = (st.allIngredients.map fun i =>
              if i.id = record.ingredientId then
                { i with stockLevel := (
                    max 0 (i.stockLevel - record.quantity)) }
              else i))
    ∧ (∀ order, ((st.allPendingOrders.filter fun o =>
          o.outletId = st.currentOutletId).find?
          fun o => o.id = orderId) = some order →
        (receiveStock st orderId).allIngredients
          = (st.allIngredients.map fun i =>
              if order.items.any fun item => item.ingredientId = i.id then
                { i with stockLevel := (
                    i.stockLevel + orderQuantity order.items i.id) }
              else i)
        ∧ (receiveStock st orderId).allPendingOrders
          = st.allPendingOrders.filter fun o => ¬o.id = orderId) :=
  ⟨processDailySales_nonneg today st sales h0,
   addWasteRecord_nonneg st record h0,
   receiveStock_nonneg st orderId hnd h0 hq,
   processDailySales_ingredients today st sales hnd,
   fun ing hf => addWasteRecord_ingredients st record ing hnd hf,
   fun order hf => receiveStock_state st orderId order hnd hf⟩

/-- C9 witness state: one outlet ingredient with stock 10, one menu item
whose recipe consumes 3 of it per unit, one pending order of 4 units. -/
def stStock : DBState :=
  ⟨"o1", [⟨"i1", "Flour", "kg", 2, none, 10, 1, "o1"⟩],
   [⟨"m1", "Bread", 10, 50⟩], [⟨"m1", "i1", 3⟩], [], [], [],
   [⟨"po1", [⟨"i1", 4⟩], "o1"⟩]⟩

/-- C9 witness: on the concrete snapshot all three mutations keep stocks
non-negative, and receiving the pending order removes it. -/
theorem stock_invariant_spec_witness :
    (∀ i ∈ (processDailySales 5 stStock
        (fun id => if id = "m1" then 2 else 0)).allIngredients,
      0 ≤ i.stockLevel)
    ∧ (∀ i ∈ (addWasteRecord stStock ⟨"i1", 5, 20, "Expired"⟩).allIngredients,
      0 ≤ i.stockLevel)
    ∧ (∀ i ∈ (receiveStock stStock "po1").allIngredients, 0 ≤ i.stockLevel)
    ∧ (receiveStock stStock "po1").allPendingOrders = [] := by
  have h := stock_invariant_spec 5 stStock
    (fun id => if id = "m1" then 2 else 0) ⟨"i1", 5, 20, "Expired"⟩ "po1"
    (by simp [stStock])
    (by intro i hi; simp [stStock] at hi; simp [hi])
    (by
      intro o ho item hitem
      simp [stStock] at ho
      subst ho
      simp at hitem
      simp [hitem])
  refine ⟨h.1, h.2.1, h.2.2.1, ?_⟩
  have hf : ((stStock.allPendingOrders.filter fun o =>
      o.outletId = stStock.currentOutletId).find?
      fun o => o.id = "po1") = some ⟨"po1", [⟨"i1", 4⟩], "o1"⟩ := by
    simp [stStock]
  rw [(h.2.2.2.2.2 ⟨"po1", [⟨"i1", 4⟩], "o1"⟩ hf).2]
  simp [stStock]

end ProfitLens
